import Mathlib

/-!
Shallow embedding of the automation & analytics core of the school
administration backend (fee reminder engine, analytics/forecast engine with
result cache, batch section assignment), translated from
`backend/app/services/fee_reminder_service.py`,
`backend/app/services/analytics_service.py` and
`backend/app/services/batch_assignment.py`.

Modelling conventions:
* dates are integers (day numbers) and timestamps are integers in units of
  days; only order and differences matter to the translated logic;
* money amounts are integers (paise), as stored in the database; values the
  Python code divides by 100 become rationals;
* the SQLAlchemy queries become filters over in-memory lists of records;
* the SMS transport outcome is an external input (a boolean, or a stream of
  booleans for a whole run).
-/

namespace SMSApp

/-- A `MonthlyFee` row (the obligation): student, period, pending amount,
due date and status, as used by the reminder service. -/
structure MonthlyFee where
  id : ℕ
  student_id : ℕ
  month : ℕ
  year : ℕ
  amount_pending : ℤ
  due_date : ℤ
  status : String
deriving DecidableEq

/-- A `FeeReminder` row (the reminder ledger record). -/
structure FeeReminder where
  student_id : ℕ
  monthly_fee_id : ℕ
  reminder_type : String
  amount_pending : ℤ
  due_date : ℤ
  sent_at : ℤ
  sms_status : String
  payment_received_after : Bool
  days_to_payment : Option ℤ
deriving DecidableEq

/-- The `AutomationConfig` values read by the reminder service, already
decoded to their types (`get_config` with the documented defaults). -/
structure ReminderConfig where
  enabled : Bool
  maxReminders : ℕ
  daysBefore : ℤ
  overdueDays : List ℤ
deriving DecidableEq

/-- Default configuration: enabled, `max_reminders_per_student = 4`,
`fee_reminder_days_before = 3`, `fee_reminder_overdue_days = "3,7,15"`. -/
def defaultConfig : ReminderConfig :=
  { enabled := true, maxReminders := 4, daysBefore := 3, overdueDays := [3, 7, 15] }

/-- The count query in `should_send_reminder`: number of existing
`FeeReminder` rows for this (student, monthly fee). -/
def reminderCount (rems : List FeeReminder) (fee : MonthlyFee) : ℕ :=
  (rems.filter (fun r => r.student_id == fee.student_id && r.monthly_fee_id == fee.id)).length

/-- The throttling query in `should_send_reminder`: is there a reminder of the
same type for the same (student, monthly fee) sent within the last 2 days
(`sent_at >= now - timedelta(days=2)`)? -/
def hasRecentSameKind (rems : List FeeReminder) (fee : MonthlyFee) (rtype : String)
    (now : ℤ) : Bool :=
  rems.any (fun r =>
    r.student_id == fee.student_id && r.monthly_fee_id == fee.id &&
    r.reminder_type == rtype && decide (now - 2 ≤ r.sent_at))

/-- Translation of `FeeReminderService.should_send_reminder`: reminders enabled, fewer than
`max_reminders_per_student` existing records, and no same-kind reminder in
the last 2 days. -/
def shouldSendReminder (cfg : ReminderConfig) (rems : List FeeReminder)
    (fee : MonthlyFee) (rtype : String) (now : ℤ) : Bool :=
  if !cfg.enabled then false
  else if cfg.maxReminders ≤ reminderCount rems fee then false
  else if hasRecentSameKind rems fee rtype now then false
  else true

/-- The `FeeReminder` row created by `send_reminder` (with
`sms_status = "sent" if success else "failed"`). -/
def mkReminderRecord (fee : MonthlyFee) (rtype : String) (success : Bool)
    (now : ℤ) : FeeReminder :=
  { student_id := fee.student_id
    monthly_fee_id := fee.id
    reminder_type := rtype
    amount_pending := fee.amount_pending
    due_date := fee.due_date
    sent_at := now
    sms_status := if success then "sent" else "failed"
    payment_received_after := false
    days_to_payment := none }

/-- Translation of `FeeReminderService.send_reminder`: sends the SMS (outcome `success` is
supplied by the transport), then unconditionally adds one `FeeReminder`
record and returns the transport outcome. -/
def sendReminder (rems : List FeeReminder) (fee : MonthlyFee) (rtype : String)
    (success : Bool) (now : ℤ) : List FeeReminder × Bool :=
  (rems ++ [mkReminderRecord fee rtype success now], success)

/-- Eligibility filter of `get_pending_fees_for_reminders`: status in
{pending, partial} and `amount_pending > 0`. -/
def eligibleFee (f : MonthlyFee) : Bool :=
  (f.status == "pending" || f.status == "partial") && decide (0 < f.amount_pending)

/-- The per-category query: eligible fees whose due date equals `d`. -/
def feesDueOn (fees : List MonthlyFee) (d : ℤ) : List MonthlyFee :=
  fees.filter (fun f => eligibleFee f && f.due_date == d)

/-- The `categorized_fees` Python dict, keyed by category name. -/
abbrev FeeDict := List (String × List MonthlyFee)

/-- Python dict assignment `d[k] = v`: overwrite the existing binding for `k`,
or append a new one. -/
def dictSet (d : FeeDict) (k : String) (v : List MonthlyFee) : FeeDict :=
  if (List.any d (fun kv => kv.1 == k)) then
    List.map (fun kv => if kv.1 == k then (k, v) else kv) d
  else d ++ [(k, v)]

/-- Python dict lookup `d[k]`; the keys looked up by the service are always
present (they are initialised up front), so a missing key yields `[]`. -/
def dictGet (d : FeeDict) (k : String) : List MonthlyFee :=
  ((List.find? (fun kv => kv.1 == k) d).map (fun kv => kv.2)).getD []

/-- Translation of `FeeReminderService.get_pending_fees_for_reminders`: initialise the dict
with the five fixed keys, then fill `advance`, `due`, and one key
`overdue_{d}` per configured overdue offset `d`. -/
def categorizePendingFees (cfg : ReminderConfig) (fees : List MonthlyFee)
    (today : ℤ) : FeeDict :=
  let d0 : FeeDict :=
    [("advance", []), ("due", []), ("overdue_3", []), ("overdue_7", []), ("overdue_15", [])]
  let d1 := dictSet d0 "advance" (feesDueOn fees (today + cfg.daysBefore))
  let d2 := dictSet d1 "due" (feesDueOn fees today)
  cfg.overdueDays.foldl
    (fun d k => dictSet d ("overdue_" ++ toString k) (feesDueOn fees (today - k))) d2

/-- The (fee, reminder-kind) pairs that `process_automated_reminders`
iterates over, in order: the `advance` list with kind "advance", the `due`
list with kind "due", then the hard-coded keys `overdue_3`, `overdue_7`,
`overdue_15`, the last with kind "final" and the other two with kind
"overdue". -/
def classifiedPairs (cfg : ReminderConfig) (today : ℤ) (fees : List MonthlyFee) :
    List (MonthlyFee × String) :=
  let cat := categorizePendingFees cfg fees today
  (dictGet cat "advance").map (fun f => (f, "advance")) ++
  (dictGet cat "due").map (fun f => (f, "due")) ++
  (["overdue_3", "overdue_7", "overdue_15"].map (fun key =>
      (dictGet cat key).map (fun f =>
        (f, if key == "overdue_15" then "final" else "overdue")))).flatten

/-- The `stats` dict built by `process_automated_reminders`. -/
structure RunStats where
  total_processed : ℕ
  reminders_sent : ℕ
  reminders_failed : ℕ
  by_advance : ℕ
  by_due : ℕ
  by_overdue : ℕ
  by_final : ℕ
deriving DecidableEq

/-- The update `stats["by_type"][reminder_type] += 1` for the four keys present in the
dict. -/
def bumpByType (s : RunStats) (rtype : String) : RunStats :=
  if rtype == "advance" then { s with by_advance := s.by_advance + 1 }
  else if rtype == "due" then { s with by_due := s.by_due + 1 }
  else if rtype == "overdue" then { s with by_overdue := s.by_overdue + 1 }
  else if rtype == "final" then { s with by_final := s.by_final + 1 }
  else s

/-- One iteration of the processing loops of `process_automated_reminders`:
count the fee, and if the throttle check passes, send (consuming one SMS
transport outcome from the oracle) and record the result. The state carries
the number of transport calls made so far, the reminder ledger, and the
stats. -/
def processOne (cfg : ReminderConfig) (now : ℤ) (oracle : ℕ → Bool)
    (st : ℕ × List FeeReminder × RunStats) (p : MonthlyFee × String) :
    ℕ × List FeeReminder × RunStats :=
  let (calls, rems, stats) := st
  let stats := { stats with total_processed := stats.total_processed + 1 }
  if shouldSendReminder cfg rems p.1 p.2 now then
    let success := oracle calls
    let rems := (sendReminder rems p.1 p.2 success now).1
    if success then
      (calls + 1, rems,
        bumpByType { stats with reminders_sent := stats.reminders_sent + 1 } p.2)
    else
      (calls + 1, rems, { stats with reminders_failed := stats.reminders_failed + 1 })
  else
    (calls, rems, stats)

/-- Translation of `FeeReminderService.process_automated_reminders`: categorize the pending
fees, then process every (fee, kind) pair in order, threading the ledger
(each send adds a record that later throttle checks see) and the stats. -/
def processAutomatedReminders (cfg : ReminderConfig) (fees : List MonthlyFee)
    (rems : List FeeReminder) (today now : ℤ) (oracle : ℕ → Bool) : RunStats :=
  ((classifiedPairs cfg today fees).foldl (processOne cfg now oracle)
    (0, rems,
      { total_processed := 0, reminders_sent := 0, reminders_failed := 0,
        by_advance := 0, by_due := 0, by_overdue := 0, by_final := 0 })).2.2

/-- The `effectiveness_rate` of `FeeReminderService.get_reminder_stats`:
`payment_after_reminder / total_reminders * 100` when there are reminders,
else `0`. -/
def effectivenessRate (rems : List FeeReminder) : ℚ :=
  let total := rems.length
  let paymentAfter := (rems.filter (fun r => r.payment_received_after)).length
  if 0 < total then (paymentAfter : ℚ) / (total : ℚ) * 100 else 0

/-- An `AnalyticsCache` row: report type, parameters (a JSON object, modelled
as a key/value list compared for equality as the SQL `==` does), payload,
computed-at and expires-at timestamps. -/
structure CacheEntry where
  report_type : String
  parameters : List (String × String)
  result_data : String
  computed_at : ℤ
  expires_at : ℤ
deriving DecidableEq

/-- The identity match used by both cache queries:
`report_type == kind AND parameters == params`. -/
def cacheMatches (kind : String) (params : List (String × String))
    (e : CacheEntry) : Bool :=
  e.report_type == kind && e.parameters == params

/-- Replace the first entry satisfying `p` by `f` of it (the
`scalar_one_or_none` row that `cache_analytics` mutates in place). -/
def updateFirstEntry (p : CacheEntry → Bool) (f : CacheEntry → CacheEntry) :
    List CacheEntry → List CacheEntry
  | [] => []
  | e :: rest => if p e then f e :: rest else e :: updateFirstEntry p f rest

/-- Translation of `AnalyticsService.cache_analytics`: upsert — if an entry with the same
identity exists, overwrite its payload and timestamps (expiry `now + ttl`);
otherwise insert a new entry. -/
def cacheAnalytics (store : List CacheEntry) (kind : String)
    (params : List (String × String)) (payload : String) (ttl now : ℤ) :
    List CacheEntry :=
  if store.any (cacheMatches kind params) then
    updateFirstEntry (cacheMatches kind params)
      (fun e => { e with result_data := payload, computed_at := now,
                         expires_at := now + ttl }) store
  else
    store ++ [{ report_type := kind, parameters := params, result_data := payload,
                computed_at := now, expires_at := now + ttl }]

/-- Translation of `AnalyticsService.get_cached_analytics`: the payload of an entry with the
same identity whose expiry is strictly in the future, else `none`. -/
def getCachedAnalytics (store : List CacheEntry) (kind : String)
    (params : List (String × String)) (now : ℤ) : Option String :=
  (store.find? (fun e => cacheMatches kind params e && decide (now < e.expires_at))).map
    (fun e => e.result_data)

/-- The Python `statistics.mean` on a list of rationals (the empty case, on which Python
raises, is never reached by the callers below). -/
def mean (l : List ℚ) : ℚ := l.sum / (l.length : ℚ)

/-- Round half to even to an integer, as Python `round` does on exact
values. -/
def roundHalfEven (q : ℚ) : ℤ :=
  let n := ⌊q⌋
  let r := q - (n : ℚ)
  if r < 1/2 then n
  else if 1/2 < r then n + 1
  else if Even n then n else n + 1

/-- Python `round(x, 2)` on an exact value. -/
def round2 (q : ℚ) : ℚ := (roundHalfEven (q * 100) : ℚ) / 100

/-- One month of the forecast list produced by `forecast_revenue` (the
calendar month/year fields, derived from the current date, carry no logic and
are omitted). -/
structure ForecastEntry where
  forecasted_amount : ℚ
  confidence : String
deriving DecidableEq

/-- The result of `forecast_revenue` (the fields the decision logic
computes). -/
structure ForecastResult where
  forecast : List ForecastEntry
  trend : String
  confidence : String
  historical_average : ℚ
deriving DecidableEq

/-- The trend analysis of `forecast_revenue`: only when there are at least 3
monthly data points, compare the first-half mean with the second-half mean
(`mid_point = len // 2`); more than 10% higher second half ⇒ increasing with
factor 1.05, more than 10% lower ⇒ decreasing with factor 0.95, else stable
with factor 1. Fewer than 3 points ⇒ stable with factor 1. -/
def trendOf (c : List ℚ) : String × ℚ :=
  if 3 ≤ c.length then
    let mid := c.length / 2
    let firstHalfAvg := mean (c.take mid)
    let secondHalfAvg := mean (c.drop mid)
    if firstHalfAvg * (11/10) < secondHalfAvg then ("increasing", 21/20)
    else if secondHalfAvg < firstHalfAvg * (9/10) then ("decreasing", 19/20)
    else ("stable", 1)
  else ("stable", 1)

/-- Translation of `AnalyticsService.forecast_revenue`, as a function of the historical
monthly payment totals (the `total_amount` sums, in paise, ordered by
month) and the number of months to forecast. With no historical data it
returns the explicit insufficient-data result; otherwise monthly collections
are the totals divided by 100, the trend is `trendOf`, and month `i`
(1-based) of the forecast is `round(base * factor ^ i, 2)` from the last
observed month, with confidence "medium" for `i ≤ 2` and "low" beyond. -/
def forecastRevenue (historical : List ℚ) (monthsAhead : ℕ) : ForecastResult :=
  if historical.isEmpty then
    { forecast := [], trend := "insufficient_data", confidence := "low",
      historical_average := 0 }
  else
    let c := historical.map (fun a => a / 100)
    let avg := mean c
    let tf := trendOf c
    let base := c.getLastD 0
    let fc := (List.range monthsAhead).map (fun j =>
      { forecasted_amount := round2 (base * tf.2 ^ (j + 1)),
        confidence := if j + 1 ≤ 2 then "medium" else "low" : ForecastEntry })
    { forecast := fc, trend := tf.1,
      confidence := if 4 ≤ c.length then "medium" else "low",
      historical_average := round2 avg }

/-- A `Payment` row as seen by the risk scoring (only the payment date
matters). -/
structure Payment where
  payment_date : ℤ
deriving DecidableEq

/-- A `Student` row with the joined collections used by
`get_at_risk_students`. `attendance_percentage` and `average_marks` are
nullable columns, so `Option`; the Python truthiness test on them treats both
`None` and `0` as falsy. -/
structure StudentRec where
  attendance_percentage : Option ℚ
  monthly_fees : List MonthlyFee
  payments : List Payment
  fee_reminders : List FeeReminder
  average_marks : Option ℚ
deriving DecidableEq

/-- The risk-score accumulation of `AnalyticsService.get_at_risk_students`
for one student, translated factor by factor.  Factor 1 is guarded by
`if student.attendance_percentage and student.attendance_percentage <
threshold_attendance`, i.e. the attendance value must be non-null, non-zero
(Python truthiness) and below the threshold; factor 5 is guarded the same
way on `average_marks < 40`. -/
def riskScore (today : ℤ) (thresholdAttendance : ℚ) (thresholdPaymentDelays : ℕ)
    (s : StudentRec) : ℕ :=
  let f1 : ℕ :=
    match s.attendance_percentage with
    | some a => if a ≠ 0 ∧ a < thresholdAttendance then 30 else 0
    | none => 0
  let overdueFees := s.monthly_fees.filter (fun f =>
    (f.status == "pending" || f.status == "partial") && decide (f.due_date < today))
  let f2 : ℕ := if thresholdPaymentDelays ≤ overdueFees.length then 25 else 0
  let recentPayments := s.payments.filter (fun p => decide (today - p.payment_date ≤ 90))
  let f3 : ℕ := if recentPayments.isEmpty && !overdueFees.isEmpty then 20 else 0
  let unresponded := s.fee_reminders.filter (fun r => !r.payment_received_after)
  let f4 : ℕ := if 3 ≤ unresponded.length then 15 else 0
  let f5 : ℕ :=
    match s.average_marks with
    | some m => if m ≠ 0 ∧ m < 40 then 10 else 0
    | none => 0
  f1 + f2 + f3 + f4 + f5

/-- A student row as used by `batch_assignment.assign_sections_to_class`. -/
structure BatchStudent where
  id : ℕ
  first_name : String
  last_name : String
  average_marks : Option ℚ
deriving DecidableEq

/-- The alphabetical sort key order: `(first_name, last_name)` ascending. -/
def alphaLe (a b : BatchStudent) : Bool :=
  decide (a.first_name < b.first_name) ||
    (a.first_name == b.first_name && decide (a.last_name ≤ b.last_name))

/-- The merit sort key order: `(-(average_marks or 0), first_name,
last_name)` ascending, i.e. higher marks first. -/
def meritLe (a b : BatchStudent) : Bool :=
  let ma := -(a.average_marks.getD 0)
  let mb := -(b.average_marks.getD 0)
  decide (ma < mb) ||
    (ma == mb &&
      (decide (a.first_name < b.first_name) ||
        (a.first_name == b.first_name && decide (a.last_name ≤ b.last_name))))

/-- Insert an element into a sorted list, before the first element it is
`le`-related to (keeping earlier-listed elements of the original list in
front of ties, which makes the sort below stable). -/
def insertSorted (le : BatchStudent → BatchStudent → Bool) (a : BatchStudent) :
    List BatchStudent → List BatchStudent
  | [] => [a]
  | b :: l => if le a b then a :: b :: l else b :: insertSorted le a l

/-- A stable sort by insertion; extensionally the same list as the stable Python
`sorted` with the corresponding key. -/
def stableSort (le : BatchStudent → BatchStudent → Bool) :
    List BatchStudent → List BatchStudent
  | [] => []
  | a :: l => insertSorted le a (stableSort le l)

/-- The sorting step of `assign_sections_to_class` (Python `sorted` is a
stable sort); an unknown strategy keeps the input order. -/
def sortStudents (strategy : String) (students : List BatchStudent) :
    List BatchStudent :=
  if strategy == "alphabetical" then stableSort alphaLe students
  else if strategy == "merit" then stableSort meritLe students
  else students

/-- The section count `(total_students + max_batch_size - 1) // max_batch_size`. -/
def numSections (total M : ℕ) : ℕ := (total + M - 1) / M

/-- The label list `[chr(65 + i) for i in range(num_sections)]`. -/
def sectionLabels (n : ℕ) : List Char :=
  (List.range n).map (fun i => Char.ofNat (65 + i))

/-- The per-student section assignment of `assign_sections_to_class`: sort,
then student at index `idx` of the sorted list gets
`section_labels[idx // max_batch_size]` when that index is in range and the
literal fallback `'Z'` otherwise. Returns the (student, section label) pairs
in sorted order. -/
def assignSectionsToClass (students : List BatchStudent) (strategy : String)
    (M : ℕ) : List (BatchStudent × Char) :=
  let sortedStudents := sortStudents strategy students
  let labels := sectionLabels (numSections sortedStudents.length M)
  sortedStudents.enum.map (fun p =>
    (p.2, labels.getD (p.1 / M) 'Z'))

/-! ## Theorems -/

/-- C1: for every database state (reminder ledger), configuration, monthly
fee and reminder kind, `should_send_reminder` returns true iff reminders are
globally enabled, the count of existing `FeeReminder` records for the
(student, fee) pair is strictly below `max_reminders_per_student`, and no
record of the same kind for that pair was sent within the last 2 days; in
particular it returns false whenever the count has reached the maximum. -/
theorem shouldSendReminder_iff_enabled_under_cap_not_recent
    (cfg : ReminderConfig) (rems : List FeeReminder) (fee : MonthlyFee)
    (rtype : String) (now : ℤ) :
    (shouldSendReminder cfg rems fee rtype now = true ↔
      (cfg.enabled = true ∧ reminderCount rems fee < cfg.maxReminders ∧
        ¬ ∃ r ∈ rems, r.student_id = fee.student_id ∧ r.monthly_fee_id = fee.id ∧
          r.reminder_type = rtype ∧ now - 2 ≤ r.sent_at)) ∧
    (cfg.maxReminders ≤ reminderCount rems fee →
      shouldSendReminder cfg rems fee rtype now = false) := by
  have hrec : hasRecentSameKind rems fee rtype now = true ↔
      ∃ r ∈ rems, r.student_id = fee.student_id ∧ r.monthly_fee_id = fee.id ∧
        r.reminder_type = rtype ∧ now - 2 ≤ r.sent_at := by
    simp [hasRecentSameKind, List.any_eq_true, and_assoc]
  have hiff : shouldSendReminder cfg rems fee rtype now = true ↔
      (cfg.enabled = true ∧ reminderCount rems fee < cfg.maxReminders ∧
        ¬ ∃ r ∈ rems, r.student_id = fee.student_id ∧ r.monthly_fee_id = fee.id ∧
          r.reminder_type = rtype ∧ now - 2 ≤ r.sent_at) := by
    rw [shouldSendReminder]
    split_ifs with h1 h2 h3
    · simp_all
    · simp only [Bool.false_eq_true, false_iff]
      intro h
      exact absurd h2 (Nat.not_le.mpr h.2.1)
    · simp only [Bool.false_eq_true, false_iff]
      intro h
      exact h.2.2 (hrec.mp h3)
    · simp only [true_iff]
      refine ⟨by simpa using h1, Nat.lt_of_not_le h2, ?_⟩
      intro hex
      exact h3 (hrec.mpr hex)
  refine ⟨hiff, fun hle => ?_⟩
  cases hb : shouldSendReminder cfg rems fee rtype now
  · rfl
  · exact absurd (hiff.mp hb).2.1 (Nat.not_lt.mpr hle)

/-- C1 witness: a concrete instantiation of the throttle characterisation
(empty ledger, default configuration). -/
theorem shouldSendReminder_iff_witness :
    shouldSendReminder defaultConfig []
      { id := 1, student_id := 1, month := 5, year := 2024,
        amount_pending := 500, due_date := 3, status := "pending" } "due" 0 = true := by
  have h := shouldSendReminder_iff_enabled_under_cap_not_recent defaultConfig []
    { id := 1, student_id := 1, month := 5, year := 2024,
      amount_pending := 500, due_date := 3, status := "pending" } "due" 0
  exact h.1.mpr ⟨by decide, by decide, by simp⟩

/-- C2: `send_reminder` always appends exactly one new `FeeReminder` record,
whose delivery status is "sent" when the transport reports success and
"failed" otherwise, and this record increases the (student, fee) count used
by the throttle check by one regardless of the transport outcome. -/
theorem sendReminder_appends_one_record (rems : List FeeReminder)
    (fee : MonthlyFee) (rtype : String) (success : Bool) (now : ℤ) :
    (sendReminder rems fee rtype success now).1 =
      rems ++ [mkReminderRecord fee rtype success now] ∧
    (sendReminder rems fee rtype success now).1.length = rems.length + 1 ∧
    (mkReminderRecord fee rtype success now).sms_status =
      (if success then "sent" else "failed") ∧
    reminderCount (sendReminder rems fee rtype success now).1 fee =
      reminderCount rems fee + 1 := by
  refine ⟨rfl, by simp [sendReminder], rfl, ?_⟩
  simp [reminderCount, sendReminder, mkReminderRecord, List.filter_append]

/-- C3 counterexample: a single reminder with the payment-received flag set
yields an effectiveness rate of 100, which is not in the interval [0, 1]:
the code computes a percentage. -/
theorem effectivenessRate_is_percent_counterexample :
    effectivenessRate
      [{ student_id := 1, monthly_fee_id := 1, reminder_type := "due",
         amount_pending := 100, due_date := 0, sent_at := 0, sms_status := "sent",
         payment_received_after := true, days_to_payment := none }] = 100 ∧
    ¬ effectivenessRate
      [{ student_id := 1, monthly_fee_id := 1, reminder_type := "due",
         amount_pending := 100, due_date := 0, sent_at := 0, sms_status := "sent",
         payment_received_after := true, days_to_payment := none }] ≤ 1 := by
  constructor <;> norm_num [effectivenessRate, List.filter]

/-- C3 amended: for every database state the effectiveness rate returned by
`get_reminder_stats` lies in [0, 100] (it is a percentage), and it equals 0
when there are no reminder records. -/
theorem effectivenessRate_bounds (rems : List FeeReminder) :
    0 ≤ effectivenessRate rems ∧ effectivenessRate rems ≤ 100 ∧
      (rems.length = 0 → effectivenessRate rems = 0) := by
  unfold effectivenessRate
  by_cases h : 0 < rems.length
  · have hple : (rems.filter (fun r => r.payment_received_after)).length ≤ rems.length :=
      List.length_filter_le _ _
    have htpos : (0 : ℚ) < (rems.length : ℚ) := by exact_mod_cast h
    have hdiv : ((rems.filter (fun r => r.payment_received_after)).length : ℚ) /
        (rems.length : ℚ) ≤ 1 := by
      rw [div_le_one htpos]
      exact_mod_cast hple
    refine ⟨?_, ?_, ?_⟩
    · simp only [h, if_true]
      positivity
    · simp only [h, if_true]
      nlinarith
    · intro h0
      omega
  · simp [h]

/-- C3 amended witness: the empty ledger has effectiveness rate 0, within
the bounds. -/
theorem effectivenessRate_bounds_witness :
    0 ≤ effectivenessRate [] ∧ effectivenessRate [] ≤ 100 ∧ effectivenessRate [] = 0 := by
  have h := effectivenessRate_bounds []
  exact ⟨h.1, h.2.1, h.2.2 rfl⟩

/-- A concrete configuration whose largest overdue offset is 20 rather
than 15. -/
def cfgOffset20 : ReminderConfig :=
  { enabled := true, maxReminders := 4, daysBefore := 3, overdueDays := [3, 7, 20] }

/-- An eligible obligation 20 days overdue when today is day 0. -/
def feeDueMinus20 : MonthlyFee :=
  { id := 1, student_id := 1, month := 5, year := 2024, amount_pending := 500,
    due_date := -20, status := "pending" }

/-- C4 counterexample: with configured overdue offsets [3, 7, 20], an
eligible obligation due exactly `today - 20` — the largest configured offset
— is not classified `final`; in fact it is never processed at all, because
the processing loop reads only the hard-coded dictionary keys `overdue_3`,
`overdue_7`, `overdue_15`. -/
theorem classifiedPairs_largest_offset_20_missed :
    eligibleFee feeDueMinus20 = true ∧
    feeDueMinus20.due_date = (0 : ℤ) - 20 ∧
    cfgOffset20.overdueDays = [3, 7, 20] ∧
    classifiedPairs cfgOffset20 0 [feeDueMinus20] = [] ∧
    (feeDueMinus20, "final") ∉ classifiedPairs cfgOffset20 0 [feeDueMinus20] := by
  refine ⟨by decide, by decide, rfl, by decide, by decide⟩

/-- Membership in the per-category fee query. -/
theorem mem_feesDueOn {fees : List MonthlyFee} {fee : MonthlyFee} {d : ℤ}
    (hmem : fee ∈ fees) (helig : eligibleFee fee = true)
    (hdue : fee.due_date = d) : fee ∈ feesDueOn fees d := by
  simp only [feesDueOn, List.mem_filter]
  exact ⟨hmem, by simp [helig, hdue]⟩

/-- A fee in the `feesDueOn` query has the queried due date. -/
theorem due_of_mem_feesDueOn {fees : List MonthlyFee} {fee : MonthlyFee} {d : ℤ}
    (h : fee ∈ feesDueOn fees d) : fee.due_date = d := by
  have := (List.mem_filter.mp h).2
  simp only [Bool.and_eq_true, beq_iff_eq] at this
  exact this.2

/-- C4 amended: with the default overdue offsets [3, 7, 15] (the only ones
the processing loop reads), an eligible obligation due `today - 15` is
classified `final` — and not `overdue` — and one due `today - 3` or
`today - 7` is classified `overdue`. -/
theorem classifiedPairs_default_offsets (en : Bool) (mx : ℕ) (dB : ℤ)
    (fees : List MonthlyFee) (today : ℤ) (fee : MonthlyFee)
    (hmem : fee ∈ fees) (helig : eligibleFee fee = true) :
    (fee.due_date = today - 15 →
      (fee, "final") ∈ classifiedPairs ⟨en, mx, dB, [3, 7, 15]⟩ today fees ∧
      (fee, "overdue") ∉ classifiedPairs ⟨en, mx, dB, [3, 7, 15]⟩ today fees) ∧
    (fee.due_date = today - 3 ∨ fee.due_date = today - 7 →
      (fee, "overdue") ∈ classifiedPairs ⟨en, mx, dB, [3, 7, 15]⟩ today fees) := by
  have hcat : classifiedPairs ⟨en, mx, dB, [3, 7, 15]⟩ today fees =
      (feesDueOn fees (today + dB)).map (fun f => (f, "advance")) ++
      (feesDueOn fees today).map (fun f => (f, "due")) ++
      ((feesDueOn fees (today - 3)).map (fun f => (f, "overdue")) ++
        ((feesDueOn fees (today - 7)).map (fun f => (f, "overdue")) ++
          ((feesDueOn fees (today - 15)).map (fun f => (f, "final")) ++ []))) := by
    have h3 : ("overdue_" ++ toString (3 : ℤ)) = "overdue_3" := rfl
    have h7 : ("overdue_" ++ toString (7 : ℤ)) = "overdue_7" := rfl
    have h15 : ("overdue_" ++ toString (15 : ℤ)) = "overdue_15" := rfl
    simp [classifiedPairs, categorizePendingFees, dictSet, dictGet, h3, h7, h15]
  constructor
  · intro hdue
    constructor
    · rw [hcat]
      refine List.mem_append_right _ (List.mem_append_right _
        (List.mem_append_right _ (List.mem_append_left _ ?_)))
      exact List.mem_map_of_mem _ (mem_feesDueOn hmem helig hdue)
    · rw [hcat]
      intro hcontra
      rcases List.mem_append.mp hcontra with h | h
      · rcases List.mem_append.mp h with h' | h'
        · rcases List.mem_map.mp h' with ⟨g, _, hg⟩
          have hne : "advance" = "overdue" := congrArg Prod.snd hg
          exact absurd hne (by decide)
        · rcases List.mem_map.mp h' with ⟨g, _, hg⟩
          have hne : "due" = "overdue" := congrArg Prod.snd hg
          exact absurd hne (by decide)
      · rcases List.mem_append.mp h with h' | h'
        · rcases List.mem_map.mp h' with ⟨g, hgmem, hg⟩
          have hgf : g = fee := congrArg Prod.fst hg
          subst hgf
          have hd3 := due_of_mem_feesDueOn hgmem
          omega
        · rcases List.mem_append.mp h' with h'' | h''
          · rcases List.mem_map.mp h'' with ⟨g, hgmem, hg⟩
            have hgf : g = fee := congrArg Prod.fst hg
            subst hgf
            have hd7 := due_of_mem_feesDueOn hgmem
            omega
          · rcases List.mem_append.mp h'' with h3 | h3
            · rcases List.mem_map.mp h3 with ⟨g, _, hg⟩
              have hne : "final" = "overdue" := congrArg Prod.snd hg
              exact absurd hne (by decide)
            · exact absurd h3 (List.not_mem_nil _)
  · intro hdue
    rw [hcat]
    refine List.mem_append_right _ ?_
    rcases hdue with hdue | hdue
    · exact List.mem_append_left _
        (List.mem_map_of_mem _ (mem_feesDueOn hmem helig hdue))
    · exact List.mem_append_right _ (List.mem_append_left _
        (List.mem_map_of_mem _ (mem_feesDueOn hmem helig hdue)))

/-- An eligible obligation due on 2024-05-26 (day 19869 since the epoch). -/
def feeDue20240526 : MonthlyFee :=
  { id := 2, student_id := 1, month := 5, year := 2024, amount_pending := 1500,
    due_date := 19869, status := "pending" }

/-- C4 amended witness: the spec scenario — today is 2024-06-10 (day 19884),
the obligation is due 2024-05-26, 15 days overdue — is classified `final`
and not `overdue` under the default offsets. -/
theorem classifiedPairs_default_offsets_witness :
    (feeDue20240526, "final") ∈
      classifiedPairs ⟨true, 4, 3, [3, 7, 15]⟩ 19884 [feeDue20240526] ∧
    (feeDue20240526, "overdue") ∉
      classifiedPairs ⟨true, 4, 3, [3, 7, 15]⟩ 19884 [feeDue20240526] := by
  have h := classifiedPairs_default_offsets true 4 3 [feeDue20240526] 19884
    feeDue20240526 (by decide) (by decide)
  exact h.1 (by decide)

/-- Upserting with a non-matching head entry keeps that entry in front. -/
theorem cacheAnalytics_cons_not_match (e : CacheEntry) (store : List CacheEntry)
    (kind : String) (params : List (String × String)) (payload : String)
    (ttl now : ℤ) (h : cacheMatches kind params e = false) :
    cacheAnalytics (e :: store) kind params payload ttl now =
      e :: cacheAnalytics store kind params payload ttl now := by
  by_cases hs : store.any (cacheMatches kind params)
  · simp [cacheAnalytics, h, hs, updateFirstEntry]
  · simp [cacheAnalytics, h, hs, updateFirstEntry]

/-- A put followed by a get with the same identity at the same instant hits
the stored payload (positive ttl). -/
theorem getCached_after_put (store : List CacheEntry) (kind : String)
    (params : List (String × String)) (payload : String) (ttl now : ℤ)
    (h : 0 < ttl) :
    getCachedAnalytics (cacheAnalytics store kind params payload ttl now)
      kind params now = some payload := by
  induction store with
  | nil =>
    simp [cacheAnalytics, getCachedAnalytics, cacheMatches, List.find?, h]
  | cons e rest ih =>
    by_cases he : cacheMatches kind params e
    · have hmatch : cacheMatches kind params
          { e with result_data := payload, computed_at := now,
                   expires_at := now + ttl } = true := by
        simpa [cacheMatches] using he
      simp only [cacheAnalytics, List.any_cons, he, Bool.true_or, if_true,
        updateFirstEntry]
      simp [getCachedAnalytics, List.find?, hmatch, h]
    · rw [cacheAnalytics_cons_not_match e rest kind params payload ttl now
        (by simpa using he)]
      simpa [getCachedAnalytics, List.find?, he] using ih

/-- If every identity-matching entry in the store has already expired, a get
misses. -/
theorem getCached_all_expired (kind : String) (params : List (String × String))
    (t : ℤ) (store : List CacheEntry)
    (h : ∀ e ∈ store, cacheMatches kind params e = true → e.expires_at ≤ t) :
    getCachedAnalytics store kind params t = none := by
  induction store with
  | nil => rfl
  | cons e rest ih =>
    have hpred : (cacheMatches kind params e && decide (t < e.expires_at)) = false := by
      by_cases he : cacheMatches kind params e
      · have := h e (List.mem_cons_self e rest) he
        simp [he, Int.not_lt.mpr this]
      · simp [he]
    simp only [getCachedAnalytics, List.find?, hpred]
    exact ih (fun e' hmem hm => h e' (List.mem_cons_of_mem e hmem) hm)

/-- C5: for every cache state, report kind, parameter set, payload and
positive ttl, `cache_analytics` followed immediately by
`get_cached_analytics` with the same identity returns the stored payload;
and a get performed after the expiry timestamps of all identity-matching
entries have passed returns a miss (`none`) even though the entries are
still stored. -/
theorem cache_put_get_roundtrip_and_expiry (store : List CacheEntry)
    (kind : String) (params : List (String × String)) (payload : String)
    (ttl now : ℤ) :
    (0 < ttl →
      getCachedAnalytics (cacheAnalytics store kind params payload ttl now)
        kind params now = some payload) ∧
    (∀ t : ℤ,
      (∀ e ∈ store, cacheMatches kind params e = true → e.expires_at ≤ t) →
      getCachedAnalytics store kind params t = none) :=
  ⟨fun h => getCached_after_put store kind params payload ttl now h,
   fun t h => getCached_all_expired kind params t store h⟩

/-- C5 witness: a concrete put/get roundtrip on the empty store, and a miss
on a store holding a single already-expired entry. -/
theorem cache_put_get_roundtrip_and_expiry_witness :
    getCachedAnalytics
      (cacheAnalytics [] "dashboard" [("year", "2024")] "payload" 86400 0)
      "dashboard" [("year", "2024")] 0 = some "payload" ∧
    getCachedAnalytics
      [{ report_type := "dashboard", parameters := [("year", "2024")],
         result_data := "stale", computed_at := 0, expires_at := 10 }]
      "dashboard" [("year", "2024")] 10 = none := by
  constructor
  · exact (cache_put_get_roundtrip_and_expiry [] "dashboard" [("year", "2024")]
      "payload" 86400 0).1 (by decide)
  · exact (cache_put_get_roundtrip_and_expiry
      [{ report_type := "dashboard", parameters := [("year", "2024")],
         result_data := "stale", computed_at := 0, expires_at := 10 }]
      "dashboard" [("year", "2024")] "unused" 86400 0).2 10 (by decide)

/-- C6 counterexample: for the two-month series [10000, 100000] (monthly
collections 100 and 1000 after the paise conversion), the second-half mean
exceeds the first-half mean by more than 10%, so the claim requires trend
"increasing" with factor 1.05 — but the code only runs the half-comparison
for series of at least 3 points and returns "stable" with factor 1, so the
first forecasted month is 1000, not 1000 × 1.05. -/
theorem forecastRevenue_two_point_series_counterexample :
    mean [(1000 : ℚ)] > mean [(100 : ℚ)] * (11/10) ∧
    (forecastRevenue [10000, 100000] 3).trend = "stable" ∧
    (forecastRevenue [10000, 100000] 3).trend ≠ "increasing" ∧
    ((forecastRevenue [10000, 100000] 3).forecast.getD 0
        ⟨0, ""⟩).forecasted_amount = 1000 ∧
    (1000 : ℚ) ≠ 1000 * (21/20) := by
  refine ⟨by norm_num [mean], rfl, by simp [forecastRevenue, trendOf], ?_, by norm_num⟩
  norm_num [forecastRevenue, trendOf, List.getD, round2, roundHalfEven, mean]

/-- C6 amended: for every non-empty historical series, the trend is computed
by the first-half/second-half mean comparison only when the series has at
least 3 points (more than 10% higher second half ⇒ "increasing" with factor
1.05, more than 10% lower ⇒ "decreasing" with factor 0.95, else "stable"
with factor 1.0); series of 1 or 2 points get trend "stable" with factor
1.0. The forecast for month `i` (1-based, `i = 1..N`) equals the last
observed monthly collection times factor^i rounded to 2 decimal places,
with confidence "medium" for `i ≤ 2` and "low" beyond. -/
theorem forecastRevenue_trend_and_forecast (historical : List ℚ)
    (monthsAhead : ℕ) (hne : historical ≠ []) :
    (forecastRevenue historical monthsAhead).trend =
      (trendOf (historical.map (fun a => a / 100))).1 ∧
    (3 ≤ (historical.map (fun a => a / 100)).length →
      ((mean ((historical.map (fun a => a / 100)).take
            ((historical.map (fun a => a / 100)).length / 2)) * (11/10) <
          mean ((historical.map (fun a => a / 100)).drop
            ((historical.map (fun a => a / 100)).length / 2)) →
        trendOf (historical.map (fun a => a / 100)) = ("increasing", 21/20)) ∧
       (¬ mean ((historical.map (fun a => a / 100)).take
            ((historical.map (fun a => a / 100)).length / 2)) * (11/10) <
          mean ((historical.map (fun a => a / 100)).drop
            ((historical.map (fun a => a / 100)).length / 2)) →
        mean ((historical.map (fun a => a / 100)).drop
            ((historical.map (fun a => a / 100)).length / 2)) <
          mean ((historical.map (fun a => a / 100)).take
            ((historical.map (fun a => a / 100)).length / 2)) * (9/10) →
        trendOf (historical.map (fun a => a / 100)) = ("decreasing", 19/20)) ∧
       (¬ mean ((historical.map (fun a => a / 100)).take
            ((historical.map (fun a => a / 100)).length / 2)) * (11/10) <
          mean ((historical.map (fun a => a / 100)).drop
            ((historical.map (fun a => a / 100)).length / 2)) →
        ¬ mean ((historical.map (fun a => a / 100)).drop
            ((historical.map (fun a => a / 100)).length / 2)) <
          mean ((historical.map (fun a => a / 100)).take
            ((historical.map (fun a => a / 100)).length / 2)) * (9/10) →
        trendOf (historical.map (fun a => a / 100)) = ("stable", 1)))) ∧
    ((historical.map (fun a => a / 100)).length < 3 →
      trendOf (historical.map (fun a => a / 100)) = ("stable", 1)) ∧
    (forecastRevenue historical monthsAhead).forecast.length = monthsAhead ∧
    (∀ j, j < monthsAhead →
      (forecastRevenue historical monthsAhead).forecast.getD j ⟨0, ""⟩ =
        { forecasted_amount :=
            round2 ((historical.map (fun a => a / 100)).getLastD 0 *
              (trendOf (historical.map (fun a => a / 100))).2 ^ (j + 1)),
          confidence := if j + 1 ≤ 2 then "medium" else "low" }) := by
  have hie : historical.isEmpty = false := by
    cases historical with
    | nil => exact absurd rfl hne
    | cons a t => rfl
  refine ⟨?_, ?_, ?_, ?_, ?_⟩
  · simp [forecastRevenue, hie]
  · intro h3
    refine ⟨?_, ?_, ?_⟩
    · intro hinc
      rw [trendOf]
      simp only [h3, if_true, hinc, if_pos]
    · intro hninc hdec
      rw [trendOf]
      simp only [h3, if_true, hninc, if_neg, if_false, hdec, if_pos]
    · intro hninc hndec
      rw [trendOf]
      simp only [h3, if_true, hninc, if_neg, if_false, hndec]
  · intro hlt
    rw [trendOf]
    simp only [Nat.not_le.mpr hlt, if_neg, if_false]
  · simp [forecastRevenue, hie]
  · intro j hj
    simp [forecastRevenue, hie, List.getD, List.getElem?_map, List.getElem?_range, hj]

/-- C6 amended witness: a concrete 3-month growing series is classified
"increasing" and forecast for the default 3 months. -/
theorem forecastRevenue_trend_and_forecast_witness :
    (forecastRevenue [100, 200, 400] 3).trend = "increasing" ∧
    (forecastRevenue [100, 200, 400] 3).forecast.length = 3 := by
  have h := forecastRevenue_trend_and_forecast [100, 200, 400] 3 (by decide)
  have h3 : 3 ≤ (([100, 200, 400] : List ℚ).map (fun a => a / 100)).length := by
    simp
  have hinc : mean ((([100, 200, 400] : List ℚ).map (fun a => a / 100)).take
        ((([100, 200, 400] : List ℚ).map (fun a => a / 100)).length / 2)) * (11/10) <
      mean ((([100, 200, 400] : List ℚ).map (fun a => a / 100)).drop
        ((([100, 200, 400] : List ℚ).map (fun a => a / 100)).length / 2)) := by
    norm_num [mean]
  refine ⟨?_, h.2.2.2.1⟩
  rw [h.1, (h.2.1 h3).1 hinc]

/-- C7: with no historical monthly payment data, `forecast_revenue` returns
an empty forecast list, trend "insufficient_data" and confidence "low"
rather than raising an error. -/
theorem forecastRevenue_no_data (historical : List ℚ) (monthsAhead : ℕ)
    (h : historical.length < 1) :
    (forecastRevenue historical monthsAhead).forecast = [] ∧
    (forecastRevenue historical monthsAhead).trend = "insufficient_data" ∧
    (forecastRevenue historical monthsAhead).confidence = "low" := by
  have hnil : historical = [] := List.length_eq_zero.mp (by omega)
  subst hnil
  exact ⟨rfl, rfl, rfl⟩

/-- C7 witness: the empty series with the default horizon of 3 months. -/
theorem forecastRevenue_no_data_witness :
    (forecastRevenue [] 3).forecast = [] ∧
    (forecastRevenue [] 3).trend = "insufficient_data" ∧
    (forecastRevenue [] 3).confidence = "low" :=
  forecastRevenue_no_data [] 3 (by decide)

/-- C8 (evaluation at the failing input): two students identical in every
risk factor except attendance percentage — 50% versus 0%, both below the
default threshold of 75 — get risk scores 30 and 0 respectively: the lower
attendance yields the strictly lower score, because the Python truthiness
guard `if student.attendance_percentage and ...` treats an attendance of
0.0 as absent and skips the low-attendance factor. -/
theorem riskScore_attendance_zero_scored_lower :
    riskScore 0 75 2
      { attendance_percentage := some 50, monthly_fees := [], payments := [],
        fee_reminders := [], average_marks := none } = 30 ∧
    riskScore 0 75 2
      { attendance_percentage := some 0, monthly_fees := [], payments := [],
        fee_reminders := [], average_marks := none } = 0 ∧
    (0 : ℚ) < 50 ∧ (50 : ℚ) < 75 := by
  refine ⟨?_, ?_, by norm_num, by norm_num⟩ <;>
    norm_num [riskScore, List.filter]

/-- The input for the C9 counterexample: 27 students (indistinct names, no
marks), forcing 27 sections at a batch size of 1. -/
def students27 : List BatchStudent :=
  (List.range 27).map (fun i =>
    { id := i, first_name := "", last_name := "", average_marks := none })

/-- Inserting preserves length plus one. -/
theorem length_insertSorted (le : BatchStudent → BatchStudent → Bool)
    (a : BatchStudent) (l : List BatchStudent) :
    (insertSorted le a l).length = l.length + 1 := by
  induction l with
  | nil => rfl
  | cons b t ih =>
    rw [insertSorted]
    split
    · rfl
    · simp [ih]

/-- Sorting preserves length. -/
theorem length_stableSort (le : BatchStudent → BatchStudent → Bool)
    (l : List BatchStudent) : (stableSort le l).length = l.length := by
  induction l with
  | nil => rfl
  | cons a t ih => rw [stableSort, length_insertSorted, ih, List.length_cons]

/-- The sorting step preserves the number of students. -/
theorem length_sortStudents (strategy : String) (students : List BatchStudent) :
    (sortStudents strategy students).length = students.length := by
  rw [sortStudents]
  split_ifs <;> first | rw [length_stableSort] | rfl

/-- The function `assign_sections_to_class` assigns one (student, label) pair per
student. -/
theorem length_assignSectionsToClass (students : List BatchStudent)
    (strategy : String) (M : ℕ) :
    (assignSectionsToClass students strategy M).length = students.length := by
  simp [assignSectionsToClass, length_sortStudents]

/-- The pair at index `i` of the assignment list: the `i`-th sorted student
together with `section_labels[i // M]` (or the fallback 'Z' when out of
range). -/
theorem assignSectionsToClass_get (students : List BatchStudent)
    (strategy : String) (M : ℕ) (i : ℕ)
    (hi : i < (assignSectionsToClass students strategy M).length)
    (hilt : i < (sortStudents strategy students).length) :
    (assignSectionsToClass students strategy M).get ⟨i, hi⟩ =
      ((sortStudents strategy students).get ⟨i, hilt⟩,
        (sectionLabels (numSections (sortStudents strategy students).length M)).getD
          (i / M) 'Z') := by
  simp [assignSectionsToClass, List.get_eq_getElem, List.getElem_map,
    List.getElem_enum]

/-- C9 counterexample: with batch size 1 and 27 students there are 27
sections, and the student at index 26 — the 27th section — receives the
label `chr(65 + 26) = '['`, a character beyond the alphabet: not one of the
26 letters A–Z and not the clamp value 'Z'. -/
theorem assignSections_label_beyond_alphabet :
    ((assignSectionsToClass students27 "alphabetical" 1).get
        ⟨26, by rw [length_assignSectionsToClass]; decide⟩).2 = '[' ∧
    '[' ∈ (assignSectionsToClass students27 "alphabetical" 1).map (fun p => p.2) ∧
    ¬ ('A' ≤ '[' ∧ '[' ≤ 'Z') ∧
    '[' ≠ 'Z' := by
  have hlen : (assignSectionsToClass students27 "alphabetical" 1).length = 27 := by
    rw [length_assignSectionsToClass]; decide
  have hilt : 26 < (sortStudents "alphabetical" students27).length := by
    rw [length_sortStudents]; decide
  have hget := assignSectionsToClass_get students27 "alphabetical" 1 26
    (by rw [length_assignSectionsToClass]; decide) hilt
  have hsnd : ((assignSectionsToClass students27 "alphabetical" 1).get
      ⟨26, by rw [length_assignSectionsToClass]; decide⟩).2 = '[' := by
    have hns : numSections (sortStudents "alphabetical" students27).length 1 = 27 := by
      rw [numSections, length_sortStudents]; decide
    rw [hget, hns]
    show (sectionLabels 27).getD (26 / 1) 'Z' = '['
    decide
  refine ⟨hsnd, ?_, by decide, by decide⟩
  exact List.mem_map.mpr ⟨_, List.get_mem _ _ _, hsnd⟩

/-- C9 amended: section labels are the consecutive characters starting at
'A' — the student at index `i` of the sorted list always receives label
`chr(65 + i // M)`, the section index never exceeds the label list (the
clamp-to-'Z' fallback is unreachable) — and all labels are within A–Z
whenever the section count is at most 26 (beyond 26 sections the labels
continue past 'Z' rather than clamping). -/
theorem assignSections_label_formula (students : List BatchStudent)
    (strategy : String) (M : ℕ) (hM : 0 < M) (i : ℕ)
    (hi : i < (assignSectionsToClass students strategy M).length) :
    ((assignSectionsToClass students strategy M).get ⟨i, hi⟩).2 =
      Char.ofNat (65 + i / M) ∧
    i / M < numSections (sortStudents strategy students).length M ∧
    (numSections (sortStudents strategy students).length M ≤ 26 →
      'A' ≤ Char.ofNat (65 + i / M) ∧ Char.ofNat (65 + i / M) ≤ 'Z') := by
  have hlen : (assignSectionsToClass students strategy M).length =
      (sortStudents strategy students).length := by
    simp [assignSectionsToClass]
  have hilt : i < (sortStudents strategy students).length := hlen ▸ hi
  have hdivlt : i / M < numSections (sortStudents strategy students).length M := by
    rw [numSections, Nat.lt_iff_add_one_le, Nat.le_div_iff_mul_le hM]
    have h1 : i / M * M ≤ i := Nat.div_mul_le_self i M
    have h2 : (i / M + 1) * M = i / M * M + M := by ring
    omega
  refine ⟨?_, hdivlt, ?_⟩
  · rw [assignSectionsToClass_get students strategy M i hi hilt]
    simp only [sectionLabels, List.getD]
    rw [List.get?_eq_getElem?, List.getElem?_map, List.getElem?_range hdivlt]
    rfl
  · intro h26
    have hk : i / M < 26 := lt_of_lt_of_le hdivlt h26
    interval_cases h : i / M <;> exact ⟨by decide, by decide⟩

/-- C9 amended witness: the label formula instantiated at the 27-student,
batch-size-1 input, index 5: the sixth student gets `chr(65 + 5) = 'F'`. -/
theorem assignSections_label_formula_witness :
    (((assignSectionsToClass students27 "alphabetical" 1).get
      ⟨5, by rw [length_assignSectionsToClass]; decide⟩).2 = Char.ofNat 70) ∧
    Char.ofNat 70 = 'F' := by
  have h := assignSections_label_formula students27 "alphabetical" 1 (by decide)
    5 (by rw [length_assignSectionsToClass]; decide)
  exact ⟨h.1, rfl⟩

/-- The run-summary invariant: sent equals the sum of the four by-type
counters, and sent + failed never exceeds the number of fees processed. -/
def statsInvariant (s : RunStats) : Prop :=
  s.reminders_sent = s.by_advance + s.by_due + s.by_overdue + s.by_final ∧
  s.reminders_sent + s.reminders_failed ≤ s.total_processed

/-- Every pair the processing loop iterates over carries one of the four
reminder kinds. -/
theorem classifiedPairs_kinds (cfg : ReminderConfig) (today : ℤ)
    (fees : List MonthlyFee) (p : MonthlyFee × String)
    (hp : p ∈ classifiedPairs cfg today fees) :
    p.2 = "advance" ∨ p.2 = "due" ∨ p.2 = "overdue" ∨ p.2 = "final" := by
  rcases List.mem_append.mp hp with h | h
  · rcases List.mem_append.mp h with h' | h'
    · rcases List.mem_map.mp h' with ⟨f, _, hf⟩
      exact Or.inl (congrArg Prod.snd hf).symm
    · rcases List.mem_map.mp h' with ⟨f, _, hf⟩
      exact Or.inr (Or.inl (congrArg Prod.snd hf).symm)
  · rcases List.mem_flatten.mp h with ⟨l, hl, hpl⟩
    rcases List.mem_map.mp hl with ⟨key, _, hkey⟩
    subst hkey
    rcases List.mem_map.mp hpl with ⟨f, _, hf⟩
    by_cases hk : (key == "overdue_15") = true
    · refine Or.inr (Or.inr (Or.inr ?_))
      rw [← hf]
      simp [hk]
    · refine Or.inr (Or.inr (Or.inl ?_))
      rw [← hf]
      simp [hk]

/-- One processing step preserves the run-summary invariant (for pairs
carrying one of the four kinds, so that the by-type bump lands in one of
the four counters). -/
theorem processOne_preserves_invariant (cfg : ReminderConfig) (now : ℤ)
    (oracle : ℕ → Bool) (st : ℕ × List FeeReminder × RunStats)
    (p : MonthlyFee × String)
    (hk : p.2 = "advance" ∨ p.2 = "due" ∨ p.2 = "overdue" ∨ p.2 = "final")
    (h : statsInvariant st.2.2) :
    statsInvariant (processOne cfg now oracle st p).2.2 := by
  obtain ⟨calls, rems, stats⟩ := st
  obtain ⟨h1, h2⟩ := h
  dsimp only [statsInvariant] at h1 h2 ⊢
  unfold processOne
  dsimp only
  split
  · split
    · rcases hk with hk | hk | hk | hk <;>
        · rw [hk]
          simp only [bumpByType]
          simp
          omega
    · simp
      omega
  · simp
    omega

/-- Folding the processing step over any list of four-kind pairs preserves
the invariant. -/
theorem foldl_processOne_invariant (cfg : ReminderConfig) (now : ℤ)
    (oracle : ℕ → Bool) (l : List (MonthlyFee × String)) :
    ∀ st : ℕ × List FeeReminder × RunStats,
      (∀ p ∈ l, p.2 = "advance" ∨ p.2 = "due" ∨ p.2 = "overdue" ∨ p.2 = "final") →
      statsInvariant st.2.2 →
      statsInvariant ((l.foldl (processOne cfg now oracle) st)).2.2 := by
  induction l with
  | nil => exact fun st _ h => h
  | cons p t ih =>
    intro st hall h
    rw [List.foldl_cons]
    exact ih _ (fun q hq => hall q (List.mem_cons_of_mem p hq))
      (processOne_preserves_invariant cfg now oracle st p
        (hall p (List.mem_cons_self p t)) h)

/-- C10: for every database state, configuration, dates and transport
outcomes, the summary returned by `process_automated_reminders` satisfies
`reminders_sent = by_type.advance + by_type.due + by_type.overdue +
by_type.final` and `reminders_sent + reminders_failed ≤ total_processed`. -/
theorem processAutomatedReminders_summary_invariant (cfg : ReminderConfig)
    (fees : List MonthlyFee) (rems : List FeeReminder) (today now : ℤ)
    (oracle : ℕ → Bool) :
    (processAutomatedReminders cfg fees rems today now oracle).reminders_sent =
      (processAutomatedReminders cfg fees rems today now oracle).by_advance +
      (processAutomatedReminders cfg fees rems today now oracle).by_due +
      (processAutomatedReminders cfg fees rems today now oracle).by_overdue +
      (processAutomatedReminders cfg fees rems today now oracle).by_final ∧
    (processAutomatedReminders cfg fees rems today now oracle).reminders_sent +
      (processAutomatedReminders cfg fees rems today now oracle).reminders_failed ≤
      (processAutomatedReminders cfg fees rems today now oracle).total_processed :=
  foldl_processOne_invariant cfg now oracle (classifiedPairs cfg today fees)
    _ (fun p hp => classifiedPairs_kinds cfg today fees p hp)
    ⟨rfl, Nat.le_refl 0⟩

end SMSApp
